import Mathlib

/-!
# NDFileEDF: the EDF file writer plugin

A shallow embedding of `NDFileEDF::openFile`, `writeFile`, `readFile` and `closeFile`
(src/NDFileEDF.cpp) and of the header they emit, followed by the properties of the
header-size field, of the padding to a minimum header size and of the session.

Conventions of the embedding

* a `std::string`, a `std::stringstream` and the contents of a `const char*` are a list of
  bytes, one `Char` per byte; `<<` on a string stream is `++`;
* the C++ `int` variables (`numCapture`, `min_header_size`, `initial_size`, `final_size`) are
  integers and string lengths are natural numbers, without a bound: the embedding describes the
  program on headers shorter than `2^31` bytes, where no `int` overflows.  The two places where
  the program reads a value through another type are explicit: the pad length of line 228, a
  subtraction made in the unsigned 64-bit type, is reduced modulo `2^64`, and the attribute
  value of line 166, read through the 32-bit signed member of the value union, is reduced
  modulo `2^32`;
* `std::log10` followed by the cast to `int` is the exact integer logarithm `Nat.log 10`;
* what C++ leaves indeterminate (the bytes of the uninitialised local `value`, what follows
  `buffer` on the stack, whether the operating system lets the file be created) is an explicit
  input, `Env`;
* the `std::ofstream` is the name of the file it is open on, and the files are a map from
  names to contents.
-/

/-- A byte string. -/
abbrev Bytes := List Char

/-- Status returned by the asyn methods. -/
inductive asynStatus
  | asynSuccess
  | asynError
  deriving DecidableEq, Repr

/-- `NDFileOpenMode_t` flag: open for reading (ADCore, NDPluginFile.h). -/
def NDFileModeRead : Nat := 0x01
/-- `NDFileOpenMode_t` flag: open for writing. -/
def NDFileModeWrite : Nat := 0x02
/-- `NDFileOpenMode_t` flag: open an existing file for appending. -/
def NDFileModeAppend : Nat := 0x04
/-- `NDFileOpenMode_t` flag: the file receives several arrays. -/
def NDFileModeMultiple : Nat := 0x08

/-- The data type tags of ADCore.  `NDArray::dataType` is compared with the same constants in
the source (the two ADCore enumerations agree on the numeric types), so one type serves both.
The eight first tags are the ones the source names; the others reach its `default:` cases. -/
inductive NDAttrDataType_t
  | NDAttrInt8
  | NDAttrUInt8
  | NDAttrInt16
  | NDAttrUInt16
  | NDAttrInt32
  | NDAttrUInt32
  | NDAttrFloat32
  | NDAttrFloat64
  | NDAttrInt64
  | NDAttrUInt64
  | NDAttrString
  | NDAttrUndefined
  deriving DecidableEq, Repr

open NDAttrDataType_t

/-- One attribute of a frame: `getName()`, `getDataType()` and the value it holds.  Only the
field that belongs to the data type is read: `intValue` is the native value of an integer
attribute, `shown` is the text that `operator<<` prints for the value of a floating point
attribute, `pString` is the string of a text attribute. -/
structure NDAttribute where
  name : Bytes
  dataType : NDAttrDataType_t
  intValue : Int
  shown : Bytes
  pString : Bytes

/-- A frame: its element type, its attribute list in iteration order (`next`), the memory
that `pData` points to (the byte at each offset), and the two numbers `getInfo` reports. -/
structure NDArray where
  dataType : NDAttrDataType_t
  pAttributeList : List NDAttribute
  pData : Nat → Char
  nElements : Nat
  bytesPerElement : Nat

/-- What the C++ program leaves to its environment. -/
structure Env where
  /-- whether `file.open` manages to create the file of this name -/
  canCreate : Bytes → Bool
  /-- the 32-bit word held by the uninitialised local `value` in the k-th pass of the loop -/
  uninit : Nat → Nat
  /-- the bytes after `buffer` on the stack, up to the first NUL, in the k-th pass -/
  pastBuffer : Nat → Bytes

/-- Decimal text of a natural number, as `operator<<` prints it. -/
def showNat (n : Nat) : Bytes := Nat.toDigits 10 n

/-- Decimal text of an `int`, as `operator<<` prints it: a minus sign for a negative value. -/
def showInt : Int → Bytes
  | Int.ofNat n => showNat n
  | Int.negSucc n => '-' :: showNat (n + 1)

/-- A 32-bit word read as a signed `int` (two's complement). -/
def toInt32 (w : Nat) : Int :=
  if w % 2 ^ 32 < 2 ^ 31 then ((w % 2 ^ 32 : Nat) : Int) else ((w % 2 ^ 32 : Nat) : Int) - 2 ^ 32

/-- Lines 166-167: `curr->getValue(curr->getDataType(), &value.i32)` stores the native value
with the width of its type at the address of the union (low byte first), and `value.i32` reads
four bytes back: the bytes that were not stored are those of the uninitialised union. -/
def getValue_i32 (t : NDAttrDataType_t) (v : Int) (uninit : Nat) : Int :=
  match t with
  | NDAttrInt8 | NDAttrUInt8 => toInt32 (uninit / 2 ^ 8 * 2 ^ 8 + (v % 2 ^ 8).toNat)
  | NDAttrInt16 | NDAttrUInt16 => toInt32 (uninit / 2 ^ 16 * 2 ^ 16 + (v % 2 ^ 16).toNat)
  | _ => toInt32 (v % 2 ^ 32).toNat

/-- Lines 188-191: `strncpy` of the string into the zeroed `buffer[256]` and `output << buffer`.
A string shorter than the buffer is printed whole; a longer one fills the buffer without a
terminator and the print runs on into what follows the buffer. -/
def getValue_string (s : Bytes) (past : Bytes) : Bytes :=
  if s.length < 256 then s else s.take 256 ++ past

/-- Lines 148-202: the loop over the attribute list, appending to `output`; `k` counts the
passes. -/
def attrLoop (env : Env) : Nat → List NDAttribute → Bytes → Bytes
  | _, [], output => output
  | k, curr :: rest, output =>
    let output := output ++ curr.name
    let output := output ++ " = ".toList
    let output :=
      match curr.dataType with
      | NDAttrInt8 | NDAttrUInt8 | NDAttrInt16 | NDAttrUInt16 | NDAttrInt32 | NDAttrUInt32 =>
        output ++ showInt (getValue_i32 curr.dataType curr.intValue (env.uninit k))
      | NDAttrFloat32 => output ++ curr.shown
      | NDAttrFloat64 => output ++ curr.shown
      | NDAttrString => output ++ getValue_string curr.pString (env.pastBuffer k)
      | _ => output
    let output := output ++ " ; \r\n".toList
    attrLoop env (k + 1) rest output

/-- Lines 104-141: the name written for the element type of the frame. -/
def dataTypeName : NDAttrDataType_t → Bytes
  | NDAttrInt8 => "SignedByte".toList
  | NDAttrUInt8 => "UnsignedByte".toList
  | NDAttrInt16 => "SignedShort".toList
  | NDAttrUInt16 => "UnsignedShort".toList
  | NDAttrInt32 => "SignedInteger".toList
  | NDAttrUInt32 => "UnsignedInteger".toList
  | NDAttrFloat32 => "FloatValue".toList
  | NDAttrFloat64 => "DoubleValue".toList
  | _ => "UnAssigned".toList

/-- Lines 91-202: the string stream `output`, that is `towrite`. -/
def openFile_output (env : Env) (openMode : Nat) (numCapture : Int) (pArray : NDArray) : Bytes :=
  let output : Bytes := []
  let output := output ++ "ByteOrder = LowByteFirst ; \r\n".toList
  let output := output ++ "Num_Images = ".toList
  let output :=
    if openMode &&& NDFileModeMultiple ≠ 0 then output ++ showInt numCapture
    else output ++ showInt 1
  let output := output ++ " ; \r\n".toList
  let output := output ++ "DataType = ".toList
  let output := output ++ dataTypeName pArray.dataType
  let output := output ++ " ; \r\n".toList
  attrLoop env 0 pArray.pAttributeList output

/-- Lines 83-88: the string stream `header_info` before the size is appended. -/
def openFile_header_info : Bytes :=
  let header_info : Bytes := []
  let header_info := header_info ++ "\n\x7b".toList
  let header_info := header_info ++ "EDF_DataBlockID = 1.Image.Psd ; \r\n".toList
  header_info ++ "EDF_HeaderSize = ".toList

/-- The expression `1 + (int) std::log10(x)` of lines 215 and 219, for `x >= 1`: the number of
decimal digits of `x`.  (The program only evaluates it on sizes of at least 134.) -/
def num_characters (x : Int) : Int := 1 + (Nat.log 10 x.toNat : Nat)

/-- Line 228: `(size_t) (final_size - 2 - towrite.length())`, the subtraction being made in
the unsigned 64-bit type. -/
def extra_length (final_size : Int) (towrite : Bytes) : Nat :=
  ((final_size - 2 - (towrite.length : Int)) % 2 ^ 64).toNat

/-- Lines 213-221: the size of the whole header, from the lengths of `first` and `towrite`,
the seven bytes of `" ; \r\n"` and `"}\n"`, and the digits of the size itself, counted in two
passes. -/
def openFile_final_size (first towrite : Bytes) : Int :=
  let initial_size : Int := first.length + towrite.length + 7
  let num_characters_in_size := num_characters initial_size
  let num_characters_in_size := num_characters (initial_size + num_characters_in_size)
  let final_size := initial_size + num_characters_in_size
  final_size

/-- The plugin object: the parameters of the parameter library that the methods read or set,
the `std::ofstream file` (`some p` when it is open, on the file named `p`), and the files. -/
structure NDFileEDF where
  NDFileCapture : Int
  NDWriteFile : Int
  NDFileNumCapture : Int
  NDFileEDFMinHeader : Int
  file : Option Bytes
  disk : Bytes → Option Bytes

namespace NDFileEDF

/-- The call `this->file.is_open()`. -/
def is_open (self : NDFileEDF) : Bool := self.file.isSome

/-- The calls `this->file << bytes` and `this->file.write(...)`: the bytes go to the end of the
file the stream is open on; a stream that is not open takes nothing. -/
def file_write (self : NDFileEDF) (bytes : Bytes) : NDFileEDF :=
  match self.file with
  | none => self
  | some p => { self with disk := Function.update self.disk p (some ((self.disk p).getD [] ++ bytes)) }

/-- The call `this->file.close()`. -/
def file_close (self : NDFileEDF) : NDFileEDF := { self with file := none }

/-- The call `this->file.open(fileName, std::ofstream::binary)`: on a stream that is open it
fails and changes nothing; otherwise the file is created, or truncated when it exists, unless
the environment refuses. -/
def file_open (self : NDFileEDF) (env : Env) (fileName : Bytes) : NDFileEDF :=
  match self.file with
  | some _ => self
  | none =>
    if env.canCreate fileName then
      { self with file := some fileName, disk := Function.update self.disk fileName (some []) }
    else self

/-- Lines 282-301. -/
def closeFile (self : NDFileEDF) : asynStatus × NDFileEDF :=
  if !self.is_open then (asynStatus.asynSuccess, self)
  else
    let self := self.file_close
    (asynStatus.asynSuccess, self)

/-- Lines 251-270. -/
def writeFile (self : NDFileEDF) (pArray : NDArray) : asynStatus × NDFileEDF :=
  if !self.is_open then (asynStatus.asynError, self)
  else
    let self :=
      self.file_write ((List.range (pArray.nElements * pArray.bytesPerElement)).map pArray.pData)
    (asynStatus.asynSuccess, self)

/-- Lines 274-278. -/
def readFile (self : NDFileEDF) : asynStatus × NDFileEDF := (asynStatus.asynError, self)

/-- Lines 32-244. -/
def openFile (self : NDFileEDF) (env : Env) (fileName : Bytes) (openMode : Nat)
    (pArray : NDArray) : asynStatus × NDFileEDF :=
  if openMode &&& NDFileModeRead ≠ 0 then
    let self := { self with NDFileCapture := 0 }
    let self := { self with NDWriteFile := 0 }
    (asynStatus.asynError, self)
  else if openMode &&& NDFileModeAppend ≠ 0 then
    let self := { self with NDFileCapture := 0 }
    let self := { self with NDWriteFile := 0 }
    (asynStatus.asynError, self)
  else
    let numCapture := self.NDFileNumCapture
    if numCapture < 0 then (asynStatus.asynError, self)
    else
      let self := if self.is_open then self.closeFile.2 else self
      let self := self.file_open env fileName
      if !self.is_open then (asynStatus.asynError, self)
      else
        let min_header_size := self.NDFileEDFMinHeader
        let header_info := openFile_header_info
        let towrite := openFile_output env openMode numCapture pArray
        let first := header_info
        let final_size := openFile_final_size first towrite
        if min_header_size ≠ 0 ∧ final_size < min_header_size then
          let final_size := min_header_size
          let header_info := header_info ++ showInt min_header_size ++ " ; \r\n".toList
          let extra := List.replicate (extra_length final_size towrite) ' '
          let self := self.file_write header_info
          let self := self.file_write towrite
          let self := self.file_write extra
          let self := self.file_write "\x7d\n".toList
          (asynStatus.asynSuccess, self)
        else
          let header_info := header_info ++ showInt final_size ++ " ; \r\n".toList
          let self := self.file_write header_info
          let self := self.file_write towrite
          let self := self.file_write "\x7d\n".toList
          (asynStatus.asynSuccess, self)

end NDFileEDF

/-! ## Definitions used to state the properties -/

/-- The bytes that `openFile` hands to the stream, in the order of the `<<` of lines 230-233
and 238-240, joined. -/
def emittedHeader (env : Env) (openMode : Nat) (numCapture min_header_size : Int)
    (pArray : NDArray) : Bytes :=
  let towrite := openFile_output env openMode numCapture pArray
  let final_size := openFile_final_size openFile_header_info towrite
  if min_header_size ≠ 0 ∧ final_size < min_header_size then
    (openFile_header_info ++ showInt min_header_size ++ " ; \r\n".toList) ++ towrite ++
      List.replicate (extra_length min_header_size towrite) ' ' ++ "\x7d\n".toList
  else
    (openFile_header_info ++ showInt final_size ++ " ; \r\n".toList) ++ towrite ++ "\x7d\n".toList

/-- An environment in which files can be created, with zeroed stack contents. -/
def env0 : Env := ⟨fun _ => true, fun _ => 0, fun _ => []⟩

/-- A closed session with one capture configured, no minimum header size and no files. -/
def session0 : NDFileEDF := ⟨0, 0, 1, 0, none, fun _ => none⟩

/-- A 2x2 frame of 16-bit unsigned elements with the attribute `Exposure`, a 32-bit float that
prints as `0.5`. -/
def frame0 : NDArray :=
  ⟨NDAttrUInt16, [⟨"Exposure".toList, NDAttrFloat32, 0, "0.5".toList, []⟩],
    fun i => "\x01\x00\x02\x00\x03\x00\x04\x00".toList.getD i '\x00', 4, 2⟩

/-- The attribute kinds for which the `switch` of lines 157-199 prints a value. -/
def recognised : NDAttrDataType_t → Bool
  | NDAttrInt8 | NDAttrUInt8 | NDAttrInt16 | NDAttrUInt16 | NDAttrInt32 | NDAttrUInt32 => true
  | NDAttrFloat32 | NDAttrFloat64 | NDAttrString => true
  | _ => false

/-- The value text of the attribute met in the k-th pass of the loop; empty for a kind the
`switch` does not name. -/
def attrValueText (env : Env) (k : Nat) (c : NDAttribute) : Bytes :=
  match c.dataType with
  | NDAttrInt8 | NDAttrUInt8 | NDAttrInt16 | NDAttrUInt16 | NDAttrInt32 | NDAttrUInt32 =>
    showInt (getValue_i32 c.dataType c.intValue (env.uninit k))
  | NDAttrFloat32 | NDAttrFloat64 => c.shown
  | NDAttrString => getValue_string c.pString (env.pastBuffer k)
  | _ => []

/-- The header line of the attribute met in the k-th pass of the loop. -/
def attrLine (env : Env) (k : Nat) (c : NDAttribute) : Bytes :=
  c.name ++ " = ".toList ++ attrValueText env k c ++ " ; \r\n".toList

/-- A frame with one attribute of a kind that the `switch` does not name. -/
def frameUndefined : NDArray :=
  ⟨NDAttrUInt16, [⟨"Note".toList, NDAttrUndefined, 0, [], []⟩], fun _ => '\x00', 4, 2⟩

/-- The raw bytes that `writeFile` takes from a frame (line 267). -/
def frameBytes (f : NDArray) : Bytes :=
  (List.range (f.nElements * f.bytesPerElement)).map f.pData

/-- The method `writeFile` called on the frames of a list in turn: the statuses returned, in
call order, and the state after the last call. -/
def writeFiles : NDFileEDF → List NDArray → List asynStatus × NDFileEDF
  | s, [] => ([], s)
  | s, f :: fs => ((s.writeFile f).1 :: (writeFiles (s.writeFile f).2 fs).1,
      (writeFiles (s.writeFile f).2 fs).2)

/-- A session left open on `f.edf` by a successful `openFile`, the header written. -/
def session1 : NDFileEDF := (session0.openFile env0 "f.edf".toList 10 frame0).2

/-- A frame of 32-bit integers with two attributes of the same name: `Tag`, the 32-bit integer
-42, and `Tag`, the text `foo`. -/
def frameDup : NDArray :=
  ⟨NDAttrInt32,
    [⟨"Tag".toList, NDAttrInt32, -42, [], []⟩, ⟨"Tag".toList, NDAttrString, 0, [], "foo".toList⟩],
    fun _ => '\x00', 0, 4⟩

/-- The eight element types that the `switch` of lines 104-141 names. -/
def knownTypes : List NDAttrDataType_t :=
  [NDAttrInt8, NDAttrUInt8, NDAttrInt16, NDAttrUInt16, NDAttrInt32, NDAttrUInt32,
    NDAttrFloat32, NDAttrFloat64]

/-- The number that a string of decimal digits denotes, read from the left. -/
def decimalValue (ds : Bytes) : Nat :=
  ds.foldl (fun acc c => 10 * acc + (c.toNat - '0'.toNat)) 0

/-- A frame with one attribute `Count` of kind uint32, holding the largest value of the type,
`4294967295`. -/
def frameU32 : NDArray :=
  ⟨NDAttrUInt32, [⟨"Count".toList, NDAttrUInt32, 4294967295, [], []⟩], fun _ => '\x00', 4, 4⟩

/-- A frame with two attributes: `Offset`, the 32-bit integer -42, and `Note`, a text that has
a semicolon and a line break in it. -/
def frameText : NDArray :=
  ⟨NDAttrUInt8,
    [⟨"Offset".toList, NDAttrInt32, -42, [], []⟩,
      ⟨"Note".toList, NDAttrString, 0, [], "a;b\nc".toList⟩],
    fun _ => '\x00', 1, 1⟩

/-! ## Decimal digits and the two passes -/

theorem toDigitsCore_length_eq (fuel : Nat) : ∀ (n : Nat) (ds : List Char), n < fuel →
    (Nat.toDigitsCore 10 fuel n ds).length = Nat.log 10 n + 1 + ds.length := by
  induction fuel with
  | zero => intro n ds h; omega
  | succ fuel ih =>
    intro n ds h
    unfold Nat.toDigitsCore
    by_cases h0 : n / 10 = 0
    · have hn : n < 10 := by omega
      simp [h0, Nat.log_of_lt hn]
      omega
    · have hn : 10 ≤ n := by omega
      have hlog : Nat.log 10 n = Nat.log 10 (n / 10) + 1 :=
        Nat.log_of_one_lt_of_le (by norm_num) hn
      simp only [h0, if_false]
      rw [ih (n / 10) _ (by omega), hlog]
      simp
      omega

theorem showNat_length (n : Nat) : (showNat n).length = Nat.log 10 n + 1 := by
  unfold showNat Nat.toDigits
  rw [toDigitsCore_length_eq (n + 1) n [] (by omega)]
  simp

theorem showInt_natCast (n : Nat) : showInt (n : Int) = showNat n := rfl

theorem showInt_of_nonneg (i : Int) (h : 0 ≤ i) : showInt i = showNat i.toNat := by
  obtain ⟨n, rfl⟩ := Int.eq_ofNat_of_zero_le h
  rfl

theorem add_two_le_pow (L : Nat) : L + 2 ≤ 10 ^ (L + 1) := by
  have := Nat.lt_pow_self (by norm_num : 1 < 10) (L + 1)
  omega

/-- The second pass settles the digit count: counting once more changes nothing. -/
theorem two_pass_fixed (i : Nat) (hi : 1 ≤ i) :
    Nat.log 10 (i + (Nat.log 10 (i + (Nat.log 10 i + 1)) + 1)) =
      Nat.log 10 (i + (Nat.log 10 i + 1)) := by
  have h10 : 1 < 10 := by norm_num
  have hlo : 10 ^ Nat.log 10 i ≤ i := Nat.pow_log_le_self 10 (by omega)
  have hhi : i < 10 ^ (Nat.log 10 i + 1) := Nat.lt_pow_succ_log_self h10 i
  have hL := add_two_le_pow (Nat.log 10 i)
  generalize Nat.log 10 i = L at *
  have hp1 : 10 ^ (L + 1) = 10 * 10 ^ L := by rw [pow_succ]; ring
  have hp2 : 10 ^ (L + 2) = 10 * 10 ^ (L + 1) := by rw [pow_succ]; ring
  by_cases hc : i + (L + 1) < 10 ^ (L + 1)
  · have e1 : Nat.log 10 (i + (L + 1)) = L :=
      Nat.log_eq_of_pow_le_of_lt_pow (by omega) hc
    rw [e1]
    exact e1
  · have e1 : Nat.log 10 (i + (L + 1)) = L + 1 :=
      Nat.log_eq_of_pow_le_of_lt_pow (by omega) (by omega)
    rw [e1]
    exact Nat.log_eq_of_pow_le_of_lt_pow (by omega) (by omega)

/-! ## What a successful `openFile` leaves in the file -/

namespace NDFileEDF

theorem file_write_on (s : NDFileEDF) (f : Bytes) (d : Bytes → Option Bytes) (x b : Bytes) :
    ({ s with file := some f, disk := Function.update d f (some x) } : NDFileEDF).file_write b =
      { s with file := some f, disk := Function.update d f (some (x ++ b)) } := by
  simp [file_write]

theorem close_then_open (s : NDFileEDF) (env : Env) (f : Bytes) :
    (if s.is_open then s.closeFile.2 else s).file_open env f =
      if env.canCreate f then
        { s with file := some f, disk := Function.update s.disk f (some []) }
      else { s with file := none } := by
  obtain ⟨c, w, n, m, file, disk⟩ := s
  cases file with
  | none => by_cases hc : env.canCreate f <;> simp [is_open, file_open, hc]
  | some p => simp [is_open, closeFile, file_close, file_open]

theorem openFile_rejects_read (s : NDFileEDF) (env : Env) (f : Bytes) (openMode : Nat)
    (a : NDArray) (h : openMode &&& NDFileModeRead ≠ 0) :
    s.openFile env f openMode a =
      (asynStatus.asynError, { s with NDFileCapture := 0, NDWriteFile := 0 }) := by
  simp [openFile, h]

theorem openFile_rejects_append (s : NDFileEDF) (env : Env) (f : Bytes) (openMode : Nat)
    (a : NDArray) (h : openMode &&& NDFileModeAppend ≠ 0) :
    s.openFile env f openMode a =
      (asynStatus.asynError, { s with NDFileCapture := 0, NDWriteFile := 0 }) := by
  by_cases hr : openMode &&& NDFileModeRead ≠ 0
  · exact openFile_rejects_read s env f openMode a hr
  · simp [openFile, h, hr]

theorem openFile_rejects_negative (s : NDFileEDF) (env : Env) (f : Bytes) (openMode : Nat)
    (a : NDArray) (hr : openMode &&& NDFileModeRead = 0) (ha : openMode &&& NDFileModeAppend = 0)
    (hn : s.NDFileNumCapture < 0) :
    s.openFile env f openMode a = (asynStatus.asynError, s) := by
  simp [openFile, hr, ha, hn]

theorem openFile_not_created (s : NDFileEDF) (env : Env) (f : Bytes) (openMode : Nat)
    (a : NDArray) (hr : openMode &&& NDFileModeRead = 0) (ha : openMode &&& NDFileModeAppend = 0)
    (hn : 0 ≤ s.NDFileNumCapture) (hc : env.canCreate f = false) :
    s.openFile env f openMode a = (asynStatus.asynError, { s with file := none }) := by
  have hn' : ¬ s.NDFileNumCapture < 0 := by omega
  simp only [openFile, hr, ha, hn', close_then_open, hc]
  simp [is_open]

theorem openFile_created (s : NDFileEDF) (env : Env) (f : Bytes) (openMode : Nat)
    (a : NDArray) (hr : openMode &&& NDFileModeRead = 0) (ha : openMode &&& NDFileModeAppend = 0)
    (hn : 0 ≤ s.NDFileNumCapture) (hc : env.canCreate f = true) :
    s.openFile env f openMode a =
      (asynStatus.asynSuccess,
        { s with
          file := some f,
          disk := Function.update s.disk f
            (some (emittedHeader env openMode s.NDFileNumCapture s.NDFileEDFMinHeader a)) }) := by
  have hn' : ¬ s.NDFileNumCapture < 0 := by omega
  simp only [openFile, hr, ha, hn', close_then_open, hc, emittedHeader]
  by_cases hm : s.NDFileEDFMinHeader ≠ 0 ∧
      openFile_final_size openFile_header_info
        (openFile_output env openMode s.NDFileNumCapture a) < s.NDFileEDFMinHeader
  · simp [is_open, hm, file_write_on]
  · simp [is_open, hm, file_write_on]

end NDFileEDF

/-! ## The size field -/

theorem openFile_final_size_eq (first towrite : Bytes) :
    openFile_final_size first towrite =
      ((first.length + towrite.length + 7 +
        (Nat.log 10 (first.length + towrite.length + 7 +
          (Nat.log 10 (first.length + towrite.length + 7) + 1)) + 1) : Nat) : Int) := by
  simp only [openFile_final_size, num_characters]
  have e1 : ((first.length : Int) + towrite.length + 7) =
      ((first.length + towrite.length + 7 : Nat) : Int) := by push_cast; ring
  rw [e1, Int.toNat_natCast]
  have e2 : ((first.length + towrite.length + 7 : Nat) : Int) +
      (1 + ((Nat.log 10 (first.length + towrite.length + 7) : Nat) : Int)) =
      ((first.length + towrite.length + 7 +
        (Nat.log 10 (first.length + towrite.length + 7) + 1) : Nat) : Int) := by
    push_cast; ring
  rw [e2, Int.toNat_natCast]
  push_cast
  ring

theorem header_info_length : openFile_header_info.length = 53 := by decide

theorem emittedHeader_zero_length (env : Env) (openMode : Nat) (numCapture : Int)
    (pArray : NDArray) :
    (emittedHeader env openMode numCapture 0 pArray).length =
      openFile_header_info.length + (openFile_output env openMode numCapture pArray).length + 7 +
        (Nat.log 10 (openFile_header_info.length +
          (openFile_output env openMode numCapture pArray).length + 7 +
          (Nat.log 10 (openFile_header_info.length +
            (openFile_output env openMode numCapture pArray).length + 7) + 1)) + 1) := by
  have hfix := two_pass_fixed
    (openFile_header_info.length + (openFile_output env openMode numCapture pArray).length + 7)
    (by omega)
  simp only [emittedHeader, ne_eq, not_true_eq_false, false_and, if_false]
  rw [openFile_final_size_eq, showInt_natCast]
  simp only [List.length_append, showNat_length, hfix]
  simp
  omega

theorem output_frame0_length : (openFile_output env0 2 1 frame0).length = 96 := by decide

theorem final_size_frame0 :
    openFile_final_size openFile_header_info (openFile_output env0 2 1 frame0) = 159 := by
  rw [openFile_final_size_eq, output_frame0_length, header_info_length]
  simp [Nat.log]

set_option maxRecDepth 100000 in
/-- C2, the code at a failing input: the example frame with a minimum header size of 200, which
is above the computed size 159.  The size field says 200, 102 spaces are inserted, and the
header that is emitted is 261 bytes long, not 200. -/
theorem openFile_min_200_emits_261 :
    openFile_final_size openFile_header_info (openFile_output env0 2 1 frame0) < 200 ∧
    (({ session0 with NDFileEDFMinHeader := 200 } : NDFileEDF).openFile env0 "f.edf".toList 2
      frame0).1 = asynStatus.asynSuccess ∧
    (({ session0 with NDFileEDFMinHeader := 200 } : NDFileEDF).openFile env0 "f.edf".toList 2
      frame0).2.disk "f.edf".toList =
      some ("\n\x7bEDF_DataBlockID = 1.Image.Psd ; \r\nEDF_HeaderSize = 200 ; \r\n".toList ++
        "ByteOrder = LowByteFirst ; \r\nNum_Images = 1 ; \r\n".toList ++
        "DataType = UnsignedShort ; \r\nExposure = 0.5 ; \r\n".toList ++
        List.replicate 102 ' ' ++ "\x7d\n".toList) ∧
    ((({ session0 with NDFileEDFMinHeader := 200 } : NDFileEDF).openFile env0 "f.edf".toList 2
      frame0).2.disk "f.edf".toList).map List.length = some 261 := by
  have h := NDFileEDF.openFile_created ({ session0 with NDFileEDFMinHeader := 200 } : NDFileEDF)
    env0 "f.edf".toList 2 frame0 (by decide) (by decide) (by decide) rfl
  have hf : openFile_final_size openFile_header_info
      (openFile_output env0 2 ({ session0 with NDFileEDFMinHeader := 200 } : NDFileEDF).NDFileNumCapture
        frame0) = 159 := final_size_frame0
  have he : emittedHeader env0 2 ({ session0 with NDFileEDFMinHeader := 200 } : NDFileEDF).NDFileNumCapture
      ({ session0 with NDFileEDFMinHeader := 200 } : NDFileEDF).NDFileEDFMinHeader frame0 =
      "\n\x7bEDF_DataBlockID = 1.Image.Psd ; \r\nEDF_HeaderSize = 200 ; \r\n".toList ++
        "ByteOrder = LowByteFirst ; \r\nNum_Images = 1 ; \r\n".toList ++
        "DataType = UnsignedShort ; \r\nExposure = 0.5 ; \r\n".toList ++
        List.replicate 102 ' ' ++ "\x7d\n".toList := by
    simp only [emittedHeader, hf]
    decide
  rw [h, he, final_size_frame0]
  refine ⟨by decide, rfl, by simp, ?_⟩
  simp

theorem emittedHeader_of_le (env : Env) (openMode : Nat) (numCapture m : Int) (pArray : NDArray)
    (hm : m ≤ openFile_final_size openFile_header_info
      (openFile_output env openMode numCapture pArray)) :
    emittedHeader env openMode numCapture m pArray =
      openFile_header_info ++
        showInt (openFile_final_size openFile_header_info
          (openFile_output env openMode numCapture pArray)) ++
        " ; \r\n".toList ++ openFile_output env openMode numCapture pArray ++ "\x7d\n".toList := by
  have hlt : ¬ openFile_final_size openFile_header_info
      (openFile_output env openMode numCapture pArray) < m := by omega
  simp [emittedHeader, hlt]

theorem emittedHeader_zero (env : Env) (openMode : Nat) (numCapture : Int) (pArray : NDArray) :
    emittedHeader env openMode numCapture 0 pArray =
      openFile_header_info ++
        showInt (openFile_final_size openFile_header_info
          (openFile_output env openMode numCapture pArray)) ++
        " ; \r\n".toList ++ openFile_output env openMode numCapture pArray ++ "\x7d\n".toList := by
  simp [emittedHeader]

/-- C3: a minimum header size `m` that is not above the size computed by the two passes
(equal to it, below it, zero or negative) changes nothing: `openFile` returns the same status
and leaves the same stream and the same files as with minimum header size 0, and when it
succeeds the file holds the header with the computed size in the size field and no padding
before the closing brace. -/
theorem openFile_min_not_above_computed (s : NDFileEDF) (env : Env) (fileName : Bytes)
    (openMode : Nat) (pArray : NDArray) (m : Int)
    (hm : m ≤ openFile_final_size openFile_header_info
      (openFile_output env openMode s.NDFileNumCapture pArray)) :
    (({ s with NDFileEDFMinHeader := m } : NDFileEDF).openFile env fileName openMode pArray).1 =
      (({ s with NDFileEDFMinHeader := 0 } : NDFileEDF).openFile env fileName openMode pArray).1 ∧
    (({ s with NDFileEDFMinHeader := m } : NDFileEDF).openFile env fileName openMode pArray).2.file =
      (({ s with NDFileEDFMinHeader := 0 } : NDFileEDF).openFile env fileName openMode
        pArray).2.file ∧
    (({ s with NDFileEDFMinHeader := m } : NDFileEDF).openFile env fileName openMode pArray).2.disk =
      (({ s with NDFileEDFMinHeader := 0 } : NDFileEDF).openFile env fileName openMode
        pArray).2.disk ∧
    ((({ s with NDFileEDFMinHeader := m } : NDFileEDF).openFile env fileName openMode pArray).1 =
        asynStatus.asynSuccess →
      (({ s with NDFileEDFMinHeader := m } : NDFileEDF).openFile env fileName openMode
        pArray).2.disk fileName =
        some (openFile_header_info ++
          showInt (openFile_final_size openFile_header_info
            (openFile_output env openMode s.NDFileNumCapture pArray)) ++
          " ; \r\n".toList ++ openFile_output env openMode s.NDFileNumCapture pArray ++
          "\x7d\n".toList)) := by
  by_cases hr : openMode &&& NDFileModeRead = 0
  swap
  · simp [NDFileEDF.openFile_rejects_read _ env fileName openMode pArray hr]
  by_cases ha : openMode &&& NDFileModeAppend = 0
  swap
  · simp [NDFileEDF.openFile_rejects_append _ env fileName openMode pArray ha]
  by_cases hn : 0 ≤ s.NDFileNumCapture
  swap
  · have hn' : s.NDFileNumCapture < 0 := by omega
    rw [NDFileEDF.openFile_rejects_negative _ env fileName openMode pArray hr ha (by exact hn'),
      NDFileEDF.openFile_rejects_negative _ env fileName openMode pArray hr ha (by exact hn')]
    simp
  by_cases hc : env.canCreate fileName = true
  swap
  · have hc' : env.canCreate fileName = false := by simpa using hc
    rw [NDFileEDF.openFile_not_created _ env fileName openMode pArray hr ha (by exact hn) hc',
      NDFileEDF.openFile_not_created _ env fileName openMode pArray hr ha (by exact hn) hc']
    simp
  rw [NDFileEDF.openFile_created _ env fileName openMode pArray hr ha (by exact hn) hc,
    NDFileEDF.openFile_created _ env fileName openMode pArray hr ha (by exact hn) hc]
  simp only [emittedHeader_of_le env openMode s.NDFileNumCapture m pArray hm, emittedHeader_zero]
  simp

set_option maxRecDepth 100000 in
/-- Witness of C3: the example frame with the minimum header size equal to the computed size,
159. -/
theorem openFile_min_not_above_computed_witness :
    (159 : Int) ≤ openFile_final_size openFile_header_info
      (openFile_output env0 2 session0.NDFileNumCapture frame0) ∧
    (({ session0 with NDFileEDFMinHeader := 159 } : NDFileEDF).openFile env0 "f.edf".toList 2
        frame0).2.disk =
      (({ session0 with NDFileEDFMinHeader := 0 } : NDFileEDF).openFile env0 "f.edf".toList 2
        frame0).2.disk :=
  ⟨le_of_eq final_size_frame0.symm,
    (openFile_min_not_above_computed session0 env0 "f.edf".toList 2 frame0 159
      (le_of_eq final_size_frame0.symm)).2.2.1⟩

/-! ## The attribute lines -/

theorem attrLoop_step (env : Env) (k : Nat) (c : NDAttribute) (rest : List NDAttribute)
    (output : Bytes) :
    attrLoop env k (c :: rest) output = attrLoop env (k + 1) rest (output ++ attrLine env k c) := by
  rw [attrLoop]
  congr 1
  simp only [attrLine, attrValueText]
  cases c.dataType <;> simp

theorem attrLoop_eq_append (env : Env) (l : List NDAttribute) : ∀ (k : Nat) (output : Bytes),
    attrLoop env k l output = output ++ attrLoop env k l [] := by
  induction l with
  | nil => intro k output; simp [attrLoop]
  | cons c rest ih =>
    intro k output
    rw [attrLoop_step, attrLoop_step, ih (k + 1) (output ++ attrLine env k c),
      ih (k + 1) ([] ++ attrLine env k c)]
    simp

theorem attrLoop_append (env : Env) (l1 l2 : List NDAttribute) : ∀ (k : Nat) (output : Bytes),
    attrLoop env k (l1 ++ l2) output =
      attrLoop env (k + l1.length) l2 (attrLoop env k l1 output) := by
  induction l1 with
  | nil => intro k output; simp [attrLoop]
  | cons c rest ih =>
    intro k output
    rw [List.cons_append, attrLoop_step, attrLoop_step, ih]
    congr 1
    simp
    omega

theorem attrLoop_eq_lines (env : Env) (l : List NDAttribute) : ∀ (k : Nat) (output : Bytes),
    attrLoop env k l output =
      output ++ ((l.enumFrom k).map (fun p => attrLine env p.1 p.2)).flatten := by
  induction l with
  | nil => intro k output; simp [attrLoop]
  | cons c rest ih =>
    intro k output
    rw [attrLoop_step, ih]
    simp [List.enumFrom]

set_option maxRecDepth 100000 in
/-- C4 as stated fails: the example frame with one attribute `Note` of an undefined kind.  The
body holds the line `Note =  ; \r\n`, so it differs from the body of the same frame with that
attribute removed, and so do the files that `openFile` leaves. -/
theorem unrecognised_attribute_not_skipped :
    openFile_output env0 2 1 frameUndefined =
      "ByteOrder = LowByteFirst ; \r\nNum_Images = 1 ; \r\n".toList ++
        "DataType = UnsignedShort ; \r\nNote =  ; \r\n".toList ∧
    openFile_output env0 2 1 frameUndefined ≠
      openFile_output env0 2 1
        { frameUndefined with
          pAttributeList :=
            frameUndefined.pAttributeList.filter (fun c => recognised c.dataType) } ∧
    (session0.openFile env0 "f.edf".toList 2 frameUndefined).2.disk "f.edf".toList ≠
      (session0.openFile env0 "f.edf".toList 2
        { frameUndefined with
          pAttributeList :=
            frameUndefined.pAttributeList.filter (fun c => recognised c.dataType) }).2.disk
        "f.edf".toList := by
  refine ⟨by decide, by decide, ?_⟩
  rw [NDFileEDF.openFile_created session0 env0 "f.edf".toList 2 _ (by decide) (by decide)
      (by decide) rfl,
    NDFileEDF.openFile_created session0 env0 "f.edf".toList 2 _ (by decide) (by decide)
      (by decide) rfl]
  simp only [Function.update_same, ne_eq, Option.some.injEq]
  intro h
  have hl := congrArg List.length h
  rw [show session0.NDFileEDFMinHeader = 0 from rfl, emittedHeader_zero_length,
    emittedHeader_zero_length] at hl
  have h1 : (openFile_output env0 2 session0.NDFileNumCapture frameUndefined).length = 89 := by
    decide
  have h2 : (openFile_output env0 2 session0.NDFileNumCapture
      { frameUndefined with
        pAttributeList :=
          frameUndefined.pAttributeList.filter (fun c => recognised c.dataType) }).length = 77 := by
    decide
  rw [h1, h2, header_info_length] at hl
  revert hl
  simp [Nat.log]

theorem attrLine_unrecognised (env : Env) (k : Nat) (c : NDAttribute)
    (hc : recognised c.dataType = false) :
    attrLine env k c = c.name ++ " = ".toList ++ " ; \r\n".toList := by
  simp only [attrLine, attrValueText]
  cases h : c.dataType <;> simp_all [recognised]

/-- C4, amended: an attribute whose kind is none of the kinds the `switch` names still gets
its line, with the name, the separator and the terminator and with an empty value.  The body
for a list `before ++ c :: after` is the body for `before`, then `<name> = ` and ` ; \r\n`, then
the lines of `after`. -/
theorem unrecognised_attribute_line (env : Env) (openMode : Nat) (numCapture : Int)
    (pArray : NDArray) (before after : List NDAttribute) (c : NDAttribute)
    (hc : recognised c.dataType = false)
    (hp : pArray.pAttributeList = before ++ c :: after) :
    openFile_output env openMode numCapture pArray =
      openFile_output env openMode numCapture { pArray with pAttributeList := before } ++
        (c.name ++ " = ".toList ++ " ; \r\n".toList) ++
        attrLoop env (before.length + 1) after [] := by
  simp only [openFile_output, hp]
  rw [attrLoop_append, attrLoop_step, attrLoop_eq_append env after, attrLine_unrecognised env _ c hc]
  simp

/-- Witness of the amended C4: the attribute `Note` of an undefined kind, alone in its list. -/
theorem unrecognised_attribute_line_witness :
    (recognised NDAttrUndefined = false ∧
      frameUndefined.pAttributeList = [] ++ ⟨"Note".toList, NDAttrUndefined, 0, [], []⟩ :: []) ∧
    openFile_output env0 2 1 frameUndefined =
      openFile_output env0 2 1 { frameUndefined with pAttributeList := [] } ++
        ("Note".toList ++ " = ".toList ++ " ; \r\n".toList) ++ attrLoop env0 (0 + 1) [] [] :=
  ⟨⟨rfl, rfl⟩,
    unrecognised_attribute_line env0 2 1 frameUndefined [] []
      ⟨"Note".toList, NDAttrUndefined, 0, [], []⟩ rfl rfl⟩

/-! ## The session -/

theorem openFile_success_conditions (s : NDFileEDF) (env : Env) (fileName : Bytes)
    (openMode : Nat) (pArray : NDArray)
    (hok : (s.openFile env fileName openMode pArray).1 = asynStatus.asynSuccess) :
    openMode &&& NDFileModeRead = 0 ∧ openMode &&& NDFileModeAppend = 0 ∧
      0 ≤ s.NDFileNumCapture ∧ env.canCreate fileName = true := by
  by_cases hr : openMode &&& NDFileModeRead = 0
  swap
  · rw [NDFileEDF.openFile_rejects_read s env fileName openMode pArray hr] at hok
    simp at hok
  by_cases ha : openMode &&& NDFileModeAppend = 0
  swap
  · rw [NDFileEDF.openFile_rejects_append s env fileName openMode pArray ha] at hok
    simp at hok
  by_cases hn : 0 ≤ s.NDFileNumCapture
  swap
  · rw [NDFileEDF.openFile_rejects_negative s env fileName openMode pArray hr ha
      (by omega)] at hok
    simp at hok
  by_cases hc : env.canCreate fileName = true
  swap
  · rw [NDFileEDF.openFile_not_created s env fileName openMode pArray hr ha hn
      (by simpa using hc)] at hok
    simp at hok
  exact ⟨hr, ha, hn, hc⟩

theorem openFile_success_state (s : NDFileEDF) (env : Env) (fileName : Bytes)
    (openMode : Nat) (pArray : NDArray)
    (hok : (s.openFile env fileName openMode pArray).1 = asynStatus.asynSuccess) :
    (s.openFile env fileName openMode pArray).2 =
      { s with
        file := some fileName,
        disk := Function.update s.disk fileName
          (some (emittedHeader env openMode s.NDFileNumCapture s.NDFileEDFMinHeader pArray)) } := by
  obtain ⟨hr, ha, hn, hc⟩ := openFile_success_conditions s env fileName openMode pArray hok
  rw [NDFileEDF.openFile_created s env fileName openMode pArray hr ha hn hc]

theorem writeFiles_on (s : NDFileEDF) (p : Bytes) (d : Bytes → Option Bytes)
    (frames : List NDArray) : ∀ x : Bytes,
    writeFiles { s with file := some p, disk := Function.update d p (some x) } frames =
      (frames.map (fun _ => asynStatus.asynSuccess),
        { s with
          file := some p,
          disk := Function.update d p (some (x ++ (frames.map frameBytes).flatten)) }) := by
  induction frames with
  | nil => intro x; simp [writeFiles]
  | cons f fs ih =>
    intro x
    have hw : ({ s with file := some p, disk := Function.update d p (some x) } :
        NDFileEDF).writeFile f =
        (asynStatus.asynSuccess,
          { s with file := some p, disk := Function.update d p (some (x ++ frameBytes f)) }) := by
      simp [NDFileEDF.writeFile, NDFileEDF.is_open, NDFileEDF.file_write_on, frameBytes]
    rw [writeFiles, hw]
    simp only [ih (x ++ frameBytes f)]
    simp

theorem frameBytes_length (frames : List NDArray) :
    ((frames.map frameBytes).flatten).length =
      (frames.map (fun f => f.nElements * f.bytesPerElement)).sum := by
  induction frames with
  | nil => simp
  | cons f fs ih =>
    simp only [List.map_cons, List.flatten_cons, List.length_append, List.sum_cons, ih]
    simp [frameBytes]

/-- C5: after a successful `openFile`, any sequence of `writeFile` calls on frames `f1..fn`
succeeds and leaves in the file exactly the header composed at open time followed by the
`nElements * bytesPerElement` raw bytes of each frame in call order, nothing between them: the
header stays an unchanged prefix and the data block is as long as the sum of the byte lengths
of the frames. -/
theorem writeFile_appends_after_header (s : NDFileEDF) (env : Env) (fileName : Bytes)
    (openMode : Nat) (pArray : NDArray) (frames : List NDArray)
    (hok : (s.openFile env fileName openMode pArray).1 = asynStatus.asynSuccess) :
    (s.openFile env fileName openMode pArray).2.disk fileName =
      some (emittedHeader env openMode s.NDFileNumCapture s.NDFileEDFMinHeader pArray) ∧
    (writeFiles (s.openFile env fileName openMode pArray).2 frames).1 =
      frames.map (fun _ => asynStatus.asynSuccess) ∧
    (writeFiles (s.openFile env fileName openMode pArray).2 frames).2.disk fileName =
      some (emittedHeader env openMode s.NDFileNumCapture s.NDFileEDFMinHeader pArray ++
        (frames.map (fun f =>
          (List.range (f.nElements * f.bytesPerElement)).map f.pData)).flatten) ∧
    ((frames.map (fun f =>
        (List.range (f.nElements * f.bytesPerElement)).map f.pData)).flatten).length =
      (frames.map (fun f => f.nElements * f.bytesPerElement)).sum := by
  rw [openFile_success_state s env fileName openMode pArray hok, writeFiles_on]
  have hb : frameBytes = fun f => (List.range (f.nElements * f.bytesPerElement)).map f.pData :=
    rfl
  rw [← hb]
  exact ⟨by simp, rfl, by simp, frameBytes_length frames⟩

/-- Witness of C5: the example frame written twice to a file opened for several frames; the
data block is the eight bytes of the frame, twice. -/
theorem writeFile_appends_after_header_witness :
    (session0.openFile env0 "f.edf".toList 10 frame0).1 = asynStatus.asynSuccess ∧
    (writeFiles (session0.openFile env0 "f.edf".toList 10 frame0).2 [frame0, frame0]).2.disk
        "f.edf".toList =
      some (emittedHeader env0 10 session0.NDFileNumCapture session0.NDFileEDFMinHeader frame0 ++
        "\x01\x00\x02\x00\x03\x00\x04\x00\x01\x00\x02\x00\x03\x00\x04\x00".toList) :=
  ⟨by decide,
    (writeFile_appends_after_header session0 env0 "f.edf".toList 10 frame0 [frame0, frame0]
      (by decide)).2.2.1⟩

/-- C6: with the read flag or the append flag in the open mode, `openFile` returns an error and
the stream and the files are what they were before the call: nothing is created, truncated,
opened or closed. -/
theorem openFile_read_or_append_fails (s : NDFileEDF) (env : Env) (fileName : Bytes)
    (openMode : Nat) (pArray : NDArray)
    (h : openMode &&& NDFileModeRead ≠ 0 ∨ openMode &&& NDFileModeAppend ≠ 0) :
    (s.openFile env fileName openMode pArray).1 = asynStatus.asynError ∧
    (s.openFile env fileName openMode pArray).2.file = s.file ∧
    (s.openFile env fileName openMode pArray).2.disk = s.disk := by
  rcases h with h | h
  · rw [NDFileEDF.openFile_rejects_read s env fileName openMode pArray h]
    exact ⟨rfl, rfl, rfl⟩
  · rw [NDFileEDF.openFile_rejects_append s env fileName openMode pArray h]
    exact ⟨rfl, rfl, rfl⟩

/-- Witness of C6: append mode asked for on the open session, for the file it is writing. -/
theorem openFile_read_or_append_fails_witness :
    (6 &&& NDFileModeRead ≠ 0 ∨ 6 &&& NDFileModeAppend ≠ 0) ∧
    (session1.openFile env0 "f.edf".toList 6 frame0).1 = asynStatus.asynError ∧
    (session1.openFile env0 "f.edf".toList 6 frame0).2.file = some "f.edf".toList ∧
    (session1.openFile env0 "f.edf".toList 6 frame0).2.disk = session1.disk :=
  ⟨by decide,
    (openFile_read_or_append_fails session1 env0 "f.edf".toList 6 frame0 (by decide)).1,
    (openFile_read_or_append_fails session1 env0 "f.edf".toList 6 frame0 (by decide)).2.1.trans
      (by decide),
    (openFile_read_or_append_fails session1 env0 "f.edf".toList 6 frame0 (by decide)).2.2⟩

/-- C7: with an accepted open mode, single-frame or multi-frame, and a negative capture
count, `openFile` returns an error and the whole session is what it was before the call: no
file is created or truncated, no header is written, an open stream stays open. -/
theorem openFile_negative_capture_fails (s : NDFileEDF) (env : Env) (fileName : Bytes)
    (openMode : Nat) (pArray : NDArray)
    (hr : openMode &&& NDFileModeRead = 0) (ha : openMode &&& NDFileModeAppend = 0)
    (hn : s.NDFileNumCapture < 0) :
    s.openFile env fileName openMode pArray = (asynStatus.asynError, s) :=
  NDFileEDF.openFile_rejects_negative s env fileName openMode pArray hr ha hn

/-- Witness of C7: the open session with the capture count set to -1, single-frame mode. -/
theorem openFile_negative_capture_fails_witness :
    (2 &&& NDFileModeRead = 0 ∧ 2 &&& NDFileModeAppend = 0 ∧
      ({ session1 with NDFileNumCapture := -1 } : NDFileEDF).NDFileNumCapture < 0) ∧
    ({ session1 with NDFileNumCapture := -1 } : NDFileEDF).openFile env0 "g.edf".toList 2 frame0 =
      (asynStatus.asynError, { session1 with NDFileNumCapture := -1 }) :=
  ⟨⟨by decide, by decide, by decide⟩,
    openFile_negative_capture_fails { session1 with NDFileNumCapture := -1 } env0
      "g.edf".toList 2 frame0 (by decide) (by decide) (by decide)⟩

/-! ## The layout of the header -/

theorem openFile_output_eq (env : Env) (openMode : Nat) (numCapture : Int) (pArray : NDArray) :
    openFile_output env openMode numCapture pArray =
      "ByteOrder = LowByteFirst ; \r\n".toList ++
      ("Num_Images = ".toList ++
        showInt (if openMode &&& NDFileModeMultiple ≠ 0 then numCapture else 1) ++
        " ; \r\n".toList) ++
      ("DataType = ".toList ++ dataTypeName pArray.dataType ++ " ; \r\n".toList) ++
      ((pArray.pAttributeList.enumFrom 0).map (fun p => attrLine env p.1 p.2)).flatten := by
  simp only [openFile_output]
  rw [attrLoop_eq_lines]
  by_cases hm : openMode &&& NDFileModeMultiple ≠ 0 <;> simp [hm]

theorem emittedHeader_eq (env : Env) (openMode : Nat) (numCapture m : Int) (pArray : NDArray) :
    emittedHeader env openMode numCapture m pArray =
      openFile_header_info ++
        showInt (if m ≠ 0 ∧ openFile_final_size openFile_header_info
            (openFile_output env openMode numCapture pArray) < m then m
          else openFile_final_size openFile_header_info
            (openFile_output env openMode numCapture pArray)) ++
        " ; \r\n".toList ++ openFile_output env openMode numCapture pArray ++
        List.replicate (if m ≠ 0 ∧ openFile_final_size openFile_header_info
            (openFile_output env openMode numCapture pArray) < m then
              extra_length m (openFile_output env openMode numCapture pArray)
            else 0) ' ' ++
        "\x7d\n".toList := by
  by_cases h : m ≠ 0 ∧ openFile_final_size openFile_header_info
      (openFile_output env openMode numCapture pArray) < m
  · rw [if_pos h, if_pos h]
    simp only [emittedHeader]
    rw [if_pos h]
  · rw [if_neg h, if_neg h]
    simp only [emittedHeader]
    rw [if_neg h]
    simp

/-- C8: after a successful `openFile` the file holds exactly, in this order: the newline and
the opening brace, the `EDF_DataBlockID` line, `EDF_HeaderSize = ` with the size digits and
its terminator, the `ByteOrder` line, the `Num_Images` line, the `DataType` line, one line
`<name> = <value> ; \r\n` for each attribute in the order of the list (none dropped, merged or
moved, whatever the names), the pad spaces, and the closing brace and newline.  The size is
the minimum header size when that is non-zero and above the computed size, with the pad of
line 228, and the computed size without pad otherwise. -/
theorem openFile_header_layout (s : NDFileEDF) (env : Env) (fileName : Bytes)
    (openMode : Nat) (pArray : NDArray)
    (hok : (s.openFile env fileName openMode pArray).1 = asynStatus.asynSuccess) :
    (s.openFile env fileName openMode pArray).2.disk fileName =
      some ("\n\x7b".toList ++ "EDF_DataBlockID = 1.Image.Psd ; \r\n".toList ++
        "EDF_HeaderSize = ".toList ++
        showInt (if s.NDFileEDFMinHeader ≠ 0 ∧ openFile_final_size openFile_header_info
            (openFile_output env openMode s.NDFileNumCapture pArray) < s.NDFileEDFMinHeader then
              s.NDFileEDFMinHeader
          else openFile_final_size openFile_header_info
            (openFile_output env openMode s.NDFileNumCapture pArray)) ++
        " ; \r\n".toList ++
        "ByteOrder = LowByteFirst ; \r\n".toList ++
        ("Num_Images = ".toList ++
          showInt (if openMode &&& NDFileModeMultiple ≠ 0 then s.NDFileNumCapture else 1) ++
          " ; \r\n".toList) ++
        ("DataType = ".toList ++ dataTypeName pArray.dataType ++ " ; \r\n".toList) ++
        ((pArray.pAttributeList.enumFrom 0).map
          (fun p => p.2.name ++ " = ".toList ++ attrValueText env p.1 p.2 ++
            " ; \r\n".toList)).flatten ++
        List.replicate (if s.NDFileEDFMinHeader ≠ 0 ∧ openFile_final_size openFile_header_info
            (openFile_output env openMode s.NDFileNumCapture pArray) < s.NDFileEDFMinHeader then
              extra_length s.NDFileEDFMinHeader
                (openFile_output env openMode s.NDFileNumCapture pArray)
            else 0) ' ' ++
        "\x7d\n".toList) := by
  rw [openFile_success_state s env fileName openMode pArray hok]
  simp only [Function.update_same, Option.some.injEq]
  rw [emittedHeader_eq]
  generalize (if s.NDFileEDFMinHeader ≠ 0 ∧ openFile_final_size openFile_header_info
      (openFile_output env openMode s.NDFileNumCapture pArray) < s.NDFileEDFMinHeader then
        s.NDFileEDFMinHeader
    else openFile_final_size openFile_header_info
      (openFile_output env openMode s.NDFileNumCapture pArray)) = size
  generalize (if s.NDFileEDFMinHeader ≠ 0 ∧ openFile_final_size openFile_header_info
      (openFile_output env openMode s.NDFileNumCapture pArray) < s.NDFileEDFMinHeader then
        extra_length s.NDFileEDFMinHeader
          (openFile_output env openMode s.NDFileNumCapture pArray)
      else 0) = pad
  rw [openFile_output_eq]
  simp [openFile_header_info, attrLine]

set_option maxRecDepth 100000 in
theorem output_frameDup_length : (openFile_output env0 2 1 frameDup).length = 105 := by decide

theorem final_size_frameDup :
    openFile_final_size openFile_header_info (openFile_output env0 2 1 frameDup) = 168 := by
  rw [openFile_final_size_eq, output_frameDup_length, header_info_length]
  simp [Nat.log]

set_option maxRecDepth 100000 in
/-- Witness of C8: the frame with two attributes named `Tag`; both lines are in the file, in
the order of the list. -/
theorem openFile_header_layout_witness :
    (session0.openFile env0 "f.edf".toList 2 frameDup).1 = asynStatus.asynSuccess ∧
    (session0.openFile env0 "f.edf".toList 2 frameDup).2.disk "f.edf".toList =
      some ("\n\x7bEDF_DataBlockID = 1.Image.Psd ; \r\nEDF_HeaderSize = 168 ; \r\n".toList ++
        "ByteOrder = LowByteFirst ; \r\nNum_Images = 1 ; \r\n".toList ++
        "DataType = SignedInteger ; \r\nTag = -42 ; \r\nTag = foo ; \r\n\x7d\n".toList) :=
  ⟨by decide,
    (openFile_header_layout session0 env0 "f.edf".toList 2 frameDup (by decide)).trans
      (by rw [show session0.NDFileNumCapture = 1 from rfl, final_size_frameDup]; decide)⟩

/-- C9: after a successful `openFile`, the line that follows the `ByteOrder` line is
`Num_Images = N ; \r\n`, where `N` is the decimal of the configured capture count (zero
included) when the open mode has the multiple-frames flag, and `1` when it has not, whatever
the capture count. -/
theorem openFile_num_images_line (s : NDFileEDF) (env : Env) (fileName : Bytes)
    (openMode : Nat) (pArray : NDArray)
    (hok : (s.openFile env fileName openMode pArray).1 = asynStatus.asynSuccess) :
    ∃ (size : Int) (rest : Bytes),
      (s.openFile env fileName openMode pArray).2.disk fileName =
        some ("\n\x7bEDF_DataBlockID = 1.Image.Psd ; \r\nEDF_HeaderSize = ".toList ++
          showInt size ++ " ; \r\nByteOrder = LowByteFirst ; \r\n".toList ++
          "Num_Images = ".toList ++
          (if openMode &&& NDFileModeMultiple ≠ 0 then showInt s.NDFileNumCapture
            else "1".toList) ++
          " ; \r\n".toList ++ rest) := by
  rw [openFile_success_state s env fileName openMode pArray hok]
  simp only [Function.update_same, Option.some.injEq]
  rw [emittedHeader_eq]
  generalize (if s.NDFileEDFMinHeader ≠ 0 ∧ openFile_final_size openFile_header_info
      (openFile_output env openMode s.NDFileNumCapture pArray) < s.NDFileEDFMinHeader then
        s.NDFileEDFMinHeader
    else openFile_final_size openFile_header_info
      (openFile_output env openMode s.NDFileNumCapture pArray)) = size
  generalize (if s.NDFileEDFMinHeader ≠ 0 ∧ openFile_final_size openFile_header_info
      (openFile_output env openMode s.NDFileNumCapture pArray) < s.NDFileEDFMinHeader then
        extra_length s.NDFileEDFMinHeader
          (openFile_output env openMode s.NDFileNumCapture pArray)
      else 0) = pad
  rw [openFile_output_eq]
  refine ⟨size, ("DataType = ".toList ++ dataTypeName pArray.dataType ++ " ; \r\n".toList) ++
    ((pArray.pAttributeList.enumFrom 0).map (fun p => attrLine env p.1 p.2)).flatten ++
    List.replicate pad ' ' ++ "\x7d\n".toList, ?_⟩
  by_cases hm : openMode &&& NDFileModeMultiple ≠ 0
  · rw [if_pos hm, if_pos hm]
    simp [openFile_header_info]
  · rw [if_neg hm, if_neg hm]
    simp [openFile_header_info]
    rfl

/-- Witness of C9: a multi-frame open with the capture count set to 0. -/
theorem openFile_num_images_line_witness :
    (({ session0 with NDFileNumCapture := 0 } : NDFileEDF).openFile env0 "f.edf".toList 10
      frame0).1 = asynStatus.asynSuccess ∧
    ∃ (size : Int) (rest : Bytes),
      (({ session0 with NDFileNumCapture := 0 } : NDFileEDF).openFile env0 "f.edf".toList 10
        frame0).2.disk "f.edf".toList =
        some ("\n\x7bEDF_DataBlockID = 1.Image.Psd ; \r\nEDF_HeaderSize = ".toList ++
          showInt size ++ " ; \r\nByteOrder = LowByteFirst ; \r\n".toList ++
          "Num_Images = ".toList ++ "0".toList ++ " ; \r\n".toList ++ rest) :=
  ⟨by decide,
    openFile_num_images_line { session0 with NDFileNumCapture := 0 } env0 "f.edf".toList 10
      frame0 (by decide)⟩

/-- C10: after a successful `openFile`, the line that follows the `Num_Images` line is
`DataType = T ; \r\n`, with `T` the name of the element type of the frame under the fixed
mapping int8 to SignedByte, uint8 to UnsignedByte, int16 to SignedShort, uint16 to
UnsignedShort, int32 to SignedInteger, uint32 to UnsignedInteger, float32 to FloatValue,
float64 to DoubleValue, and any other element type to UnAssigned; the mapping is defined for
every element type, and two of the eight known types never get the same name. -/
theorem openFile_data_type_line :
    (∀ (s : NDFileEDF) (env : Env) (fileName : Bytes) (openMode : Nat) (pArray : NDArray),
      (s.openFile env fileName openMode pArray).1 = asynStatus.asynSuccess →
      ∃ (size n : Int) (rest : Bytes),
        (s.openFile env fileName openMode pArray).2.disk fileName =
          some ("\n\x7bEDF_DataBlockID = 1.Image.Psd ; \r\nEDF_HeaderSize = ".toList ++
            showInt size ++ " ; \r\nByteOrder = LowByteFirst ; \r\n".toList ++
            "Num_Images = ".toList ++ showInt n ++ " ; \r\n".toList ++
            "DataType = ".toList ++ dataTypeName pArray.dataType ++ " ; \r\n".toList ++ rest)) ∧
    dataTypeName NDAttrInt8 = "SignedByte".toList ∧
    dataTypeName NDAttrUInt8 = "UnsignedByte".toList ∧
    dataTypeName NDAttrInt16 = "SignedShort".toList ∧
    dataTypeName NDAttrUInt16 = "UnsignedShort".toList ∧
    dataTypeName NDAttrInt32 = "SignedInteger".toList ∧
    dataTypeName NDAttrUInt32 = "UnsignedInteger".toList ∧
    dataTypeName NDAttrFloat32 = "FloatValue".toList ∧
    dataTypeName NDAttrFloat64 = "DoubleValue".toList ∧
    (∀ t : NDAttrDataType_t, t ∉ knownTypes → dataTypeName t = "UnAssigned".toList) ∧
    (∀ t1 t2 : NDAttrDataType_t, t1 ∈ knownTypes → t2 ∈ knownTypes →
      dataTypeName t1 = dataTypeName t2 → t1 = t2) := by
  refine ⟨?_, rfl, rfl, rfl, rfl, rfl, rfl, rfl, rfl, ?_, ?_⟩
  · intro s env fileName openMode pArray hok
    rw [openFile_success_state s env fileName openMode pArray hok]
    simp only [Function.update_same, Option.some.injEq]
    rw [emittedHeader_eq]
    generalize (if s.NDFileEDFMinHeader ≠ 0 ∧ openFile_final_size openFile_header_info
        (openFile_output env openMode s.NDFileNumCapture pArray) < s.NDFileEDFMinHeader then
          s.NDFileEDFMinHeader
      else openFile_final_size openFile_header_info
        (openFile_output env openMode s.NDFileNumCapture pArray)) = size
    generalize (if s.NDFileEDFMinHeader ≠ 0 ∧ openFile_final_size openFile_header_info
        (openFile_output env openMode s.NDFileNumCapture pArray) < s.NDFileEDFMinHeader then
          extra_length s.NDFileEDFMinHeader
            (openFile_output env openMode s.NDFileNumCapture pArray)
        else 0) = pad
    rw [openFile_output_eq]
    refine ⟨size, if openMode &&& NDFileModeMultiple ≠ 0 then s.NDFileNumCapture else 1,
      ((pArray.pAttributeList.enumFrom 0).map (fun p => attrLine env p.1 p.2)).flatten ++
        List.replicate pad ' ' ++ "\x7d\n".toList, ?_⟩
    simp [openFile_header_info]
  · intro t ht
    cases t <;> first | rfl | exact absurd (by decide) ht
  · intro t1 t2 h1 h2
    cases t1 <;> cases t2 <;>
      first | (intro _; rfl) | (intro h; revert h; decide) | exact absurd h1 (by decide)

/-- Witness of C10: the example frame, of 16-bit unsigned elements. -/
theorem openFile_data_type_line_witness :
    (session0.openFile env0 "f.edf".toList 2 frame0).1 = asynStatus.asynSuccess ∧
    ∃ (size n : Int) (rest : Bytes),
      (session0.openFile env0 "f.edf".toList 2 frame0).2.disk "f.edf".toList =
        some ("\n\x7bEDF_DataBlockID = 1.Image.Psd ; \r\nEDF_HeaderSize = ".toList ++
          showInt size ++ " ; \r\nByteOrder = LowByteFirst ; \r\n".toList ++
          "Num_Images = ".toList ++ showInt n ++ " ; \r\n".toList ++
          "DataType = ".toList ++ "UnsignedShort".toList ++ " ; \r\n".toList ++ rest) :=
  ⟨by decide,
    openFile_data_type_line.1 session0 env0 "f.edf".toList 2 frame0 (by decide)⟩

/-! ## `writeFile` and `closeFile` -/

/-- C11: for every frame, `writeFile` returns an error exactly when the stream is not open;
in that case the session is unchanged and nothing is written; when the stream is open it
returns success. -/
theorem writeFile_error_iff_not_open (s : NDFileEDF) (pArray : NDArray) :
    ((s.writeFile pArray).1 = asynStatus.asynError ↔ s.is_open = false) ∧
    (s.is_open = false → s.writeFile pArray = (asynStatus.asynError, s)) ∧
    (s.is_open = true → (s.writeFile pArray).1 = asynStatus.asynSuccess) := by
  cases h : s.is_open <;> simp [NDFileEDF.writeFile, h]

/-- Witness of C11: the closed session refuses the example frame and is left as it was; the
session that `openFile` left open takes it. -/
theorem writeFile_error_iff_not_open_witness :
    (session0.is_open = false ∧ session0.writeFile frame0 = (asynStatus.asynError, session0)) ∧
    (session1.is_open = true ∧ (session1.writeFile frame0).1 = asynStatus.asynSuccess) :=
  ⟨⟨rfl, (writeFile_error_iff_not_open session0 frame0).2.1 rfl⟩,
    ⟨by decide, (writeFile_error_iff_not_open session1 frame0).2.2 (by decide)⟩⟩

/-- C12: `closeFile` never fails and is idempotent: from every state it returns success and
leaves the stream closed, on a session that is already closed it changes nothing, and a second
`closeFile` gives the same status and the same state as the first. -/
theorem closeFile_idempotent (s : NDFileEDF) :
    (s.closeFile).1 = asynStatus.asynSuccess ∧
    (s.closeFile).2.is_open = false ∧
    (s.is_open = false → s.closeFile = (asynStatus.asynSuccess, s)) ∧
    (s.closeFile).2.closeFile = s.closeFile := by
  obtain ⟨c, w, n, m, file, disk⟩ := s
  cases file <;> simp [NDFileEDF.closeFile, NDFileEDF.file_close, NDFileEDF.is_open]

/-- Witness of C12: closing the closed session changes nothing; closing the open session
closes the stream and keeps the file. -/
theorem closeFile_idempotent_witness :
    (session0.is_open = false ∧ session0.closeFile = (asynStatus.asynSuccess, session0)) ∧
    (session1.closeFile).2.is_open = false ∧
    (session1.closeFile).2.closeFile = session1.closeFile :=
  ⟨⟨rfl, (closeFile_idempotent session0).2.2.1 rfl⟩,
    (closeFile_idempotent session1).2.1, (closeFile_idempotent session1).2.2.2⟩

/-! ## The text of attribute values -/

theorem digitChar_value (d : Nat) (h : d < 10) : (Nat.digitChar d).toNat - '0'.toNat = d := by
  interval_cases d <;> rfl

theorem digitChar_range (d : Nat) (h : d < 10) :
    '0'.toNat ≤ (Nat.digitChar d).toNat ∧ (Nat.digitChar d).toNat ≤ '9'.toNat := by
  interval_cases d <;> decide

theorem digitChar_ne_zero (d : Nat) (h0 : 0 < d) (h : d < 10) : Nat.digitChar d ≠ '0' := by
  interval_cases d <;> decide

theorem toDigitsCore_acc (fuel : Nat) : ∀ (n : Nat) (ds : List Char),
    Nat.toDigitsCore 10 fuel n ds = Nat.toDigitsCore 10 fuel n [] ++ ds := by
  induction fuel with
  | zero => intro n ds; simp [Nat.toDigitsCore]
  | succ fuel ih =>
    intro n ds
    unfold Nat.toDigitsCore
    by_cases h0 : n / 10 = 0
    · simp [h0]
    · simp only [h0, if_false]
      rw [ih (n / 10) (Nat.digitChar (n % 10) :: ds), ih (n / 10) [Nat.digitChar (n % 10)]]
      simp

theorem toDigitsCore_unfold (fuel n : Nat) :
    Nat.toDigitsCore 10 (fuel + 1) n [] =
      if n / 10 = 0 then [Nat.digitChar (n % 10)]
      else Nat.toDigitsCore 10 fuel (n / 10) [] ++ [Nat.digitChar (n % 10)] := by
  rw [Nat.toDigitsCore]
  by_cases h0 : n / 10 = 0
  · simp [h0]
  · simp only [h0, if_false]
    exact toDigitsCore_acc fuel (n / 10) [Nat.digitChar (n % 10)]

theorem decimalValue_snoc (xs : Bytes) (c : Char) :
    decimalValue (xs ++ [c]) = 10 * decimalValue xs + (c.toNat - '0'.toNat) := by
  simp [decimalValue, List.foldl_append]

theorem decimalValue_toDigitsCore (fuel : Nat) : ∀ n : Nat, n < fuel →
    decimalValue (Nat.toDigitsCore 10 fuel n []) = n := by
  induction fuel with
  | zero => intro n h; omega
  | succ fuel ih =>
    intro n h
    rw [toDigitsCore_unfold]
    have hd := digitChar_value (n % 10) (Nat.mod_lt n (by norm_num))
    by_cases h0 : n / 10 = 0
    · rw [if_pos h0]
      have : decimalValue [Nat.digitChar (n % 10)] =
          10 * decimalValue [] + ((Nat.digitChar (n % 10)).toNat - '0'.toNat) :=
        decimalValue_snoc [] _
      rw [this, hd]
      simp [decimalValue]
      omega
    · rw [if_neg h0, decimalValue_snoc, ih (n / 10) (by omega), hd]
      omega

theorem decimalValue_showNat (n : Nat) : decimalValue (showNat n) = n :=
  decimalValue_toDigitsCore (n + 1) n (by omega)

theorem toDigitsCore_range (fuel : Nat) : ∀ n : Nat,
    ∀ c ∈ Nat.toDigitsCore 10 fuel n [], '0'.toNat ≤ c.toNat ∧ c.toNat ≤ '9'.toNat := by
  induction fuel with
  | zero => intro n c hc; simp [Nat.toDigitsCore] at hc
  | succ fuel ih =>
    intro n c hc
    rw [toDigitsCore_unfold] at hc
    have hd := digitChar_range (n % 10) (Nat.mod_lt n (by norm_num))
    by_cases h0 : n / 10 = 0
    · rw [if_pos h0] at hc
      rw [List.mem_singleton] at hc
      rw [hc]
      exact hd
    · rw [if_neg h0, List.mem_append, List.mem_singleton] at hc
      rcases hc with hc | hc
      · exact ih (n / 10) c hc
      · rw [hc]
        exact hd

theorem toDigitsCore_head (fuel : Nat) : ∀ n : Nat, 0 < n → n < fuel →
    (Nat.toDigitsCore 10 fuel n []).head? ≠ some '0' := by
  induction fuel with
  | zero => intro n _ h; omega
  | succ fuel ih =>
    intro n hn h
    rw [toDigitsCore_unfold]
    by_cases h0 : n / 10 = 0
    · rw [if_pos h0]
      have := digitChar_ne_zero (n % 10) (by omega) (Nat.mod_lt n (by norm_num))
      simpa using this
    · rw [if_neg h0]
      have hrec := ih (n / 10) (by omega) (by omega)
      cases hl : Nat.toDigitsCore 10 fuel (n / 10) [] with
      | nil =>
        have hlen := toDigitsCore_length_eq fuel (n / 10) [] (by omega)
        rw [hl] at hlen
        simp at hlen
      | cons d rest =>
        rw [hl] at hrec
        simpa using hrec

theorem toInt32_of_int32 (v : Int) (hlo : -2 ^ 31 ≤ v) (hhi : v < 2 ^ 31) :
    toInt32 (v % 2 ^ 32).toNat = v := by
  unfold toInt32
  have hnn : 0 ≤ v % 2 ^ 32 := Int.emod_nonneg v (by norm_num)
  have hlt : v % 2 ^ 32 < 2 ^ 32 := Int.emod_lt_of_pos v (by norm_num)
  have hcast : (((v % 2 ^ 32).toNat : Nat) : Int) = v % 2 ^ 32 := Int.toNat_of_nonneg hnn
  have hmod : (v % 2 ^ 32).toNat % 2 ^ 32 = (v % 2 ^ 32).toNat := by
    apply Nat.mod_eq_of_lt
    omega
  rw [hmod, hcast]
  by_cases hv : 0 ≤ v
  · have e : v % 2 ^ 32 = v := Int.emod_eq_of_lt hv (by omega)
    rw [e]
    have : (v.toNat) < 2 ^ 31 := by omega
    rw [if_pos this]
  · have e : v % 2 ^ 32 = v + 2 ^ 32 := by
      have h1 : (v + 2 ^ 32) % 2 ^ 32 = v + 2 ^ 32 := Int.emod_eq_of_lt (by omega) (by omega)
      rw [← h1]
      simp
    rw [e]
    have : ¬ (v + 2 ^ 32).toNat < 2 ^ 31 := by omega
    rw [if_neg this]
    omega

theorem openFile_output_split (env : Env) (openMode : Nat) (numCapture : Int)
    (pArray : NDArray) (before after : List NDAttribute) (c : NDAttribute)
    (hp : pArray.pAttributeList = before ++ c :: after) :
    openFile_output env openMode numCapture pArray =
      openFile_output env openMode numCapture { pArray with pAttributeList := before } ++
        attrLine env before.length c ++ attrLoop env (before.length + 1) after [] := by
  simp only [openFile_output, hp]
  rw [attrLoop_append, attrLoop_step, attrLoop_eq_append env after]
  simp

/-- C13: for every attribute name, wherever the attribute stands in the list: an int32
attribute with value `v` gives the line `<name> = ` + the decimal of `v` + ` ; \r\n`, and a
text attribute of at most 255 bytes gives `<name> = ` + the text as it is + ` ; \r\n`, with no
escaping.  The decimal is canonical: for `v >= 0` it is the digit string of `v`, made of the
characters `0` to `9` only, denoting `v`, and without a leading zero when `v > 0`; for `v < 0`
it is a minus sign followed by the digit string of `-v`; `-42` gives `-42`. -/
theorem int32_and_text_attribute_lines :
    (∀ (env : Env) (openMode : Nat) (numCapture : Int) (pArray : NDArray)
      (before after : List NDAttribute) (c : NDAttribute),
      pArray.pAttributeList = before ++ c :: after →
      (c.dataType = NDAttrInt32 → -2 ^ 31 ≤ c.intValue → c.intValue < 2 ^ 31 →
        openFile_output env openMode numCapture pArray =
          openFile_output env openMode numCapture { pArray with pAttributeList := before } ++
            (c.name ++ " = ".toList ++ showInt c.intValue ++ " ; \r\n".toList) ++
            attrLoop env (before.length + 1) after []) ∧
      (c.dataType = NDAttrString → c.pString.length ≤ 255 →
        openFile_output env openMode numCapture pArray =
          openFile_output env openMode numCapture { pArray with pAttributeList := before } ++
            (c.name ++ " = ".toList ++ c.pString ++ " ; \r\n".toList) ++
            attrLoop env (before.length + 1) after [])) ∧
    (∀ v : Int, 0 ≤ v →
      showInt v = showNat v.toNat ∧ decimalValue (showInt v) = v.toNat ∧
      (∀ ch ∈ showInt v, '0'.toNat ≤ ch.toNat ∧ ch.toNat ≤ '9'.toNat) ∧
      (0 < v → (showInt v).head? ≠ some '0')) ∧
    (∀ v : Int, v < 0 →
      showInt v = '-' :: showNat v.natAbs ∧ decimalValue (showNat v.natAbs) = v.natAbs ∧
      (showNat v.natAbs).head? ≠ some '0') ∧
    showInt (-42) = "-42".toList := by
  refine ⟨?_, ?_, ?_, by decide⟩
  · intro env openMode numCapture pArray before after c hp
    have hsplit := openFile_output_split env openMode numCapture pArray before after c hp
    constructor
    · intro ht hlo hhi
      rw [hsplit]
      simp only [attrLine, attrValueText, ht, getValue_i32, toInt32_of_int32 c.intValue hlo hhi]
    · intro ht hlen
      rw [hsplit]
      have hlt : c.pString.length < 256 := by omega
      simp only [attrLine, attrValueText, ht, getValue_string, hlt, if_true]
  · intro v hv
    have hs := showInt_of_nonneg v hv
    rw [hs]
    refine ⟨rfl, decimalValue_showNat _, toDigitsCore_range _ _, ?_⟩
    intro hpos
    exact toDigitsCore_head _ _ (by omega) (by omega)
  · intro v hv
    have hv' : 0 < v.natAbs := by omega
    refine ⟨?_, decimalValue_showNat _, toDigitsCore_head _ _ hv' (by omega)⟩
    cases v with
    | ofNat n => exact absurd hv (by simp)
    | negSucc n => rfl

set_option maxRecDepth 100000 in
/-- Witness of C13: the int32 attribute `Offset = -42` and the text attribute `Note` whose text
holds a semicolon and a line break; both lines are in the body, the text unescaped. -/
theorem int32_and_text_attribute_lines_witness :
    ((-2 : Int) ^ 31 ≤ -42 ∧ (-42 : Int) < 2 ^ 31 ∧ "a;b\nc".toList.length ≤ 255) ∧
    openFile_output env0 2 1 frameText =
      "ByteOrder = LowByteFirst ; \r\nNum_Images = 1 ; \r\nDataType = UnsignedByte ; \r\n".toList ++
        ("Offset".toList ++ " = ".toList ++ "-42".toList ++ " ; \r\n".toList) ++
        "Note = a;b\nc ; \r\n".toList ∧
    openFile_output env0 2 1 frameText =
      "ByteOrder = LowByteFirst ; \r\nNum_Images = 1 ; \r\nDataType = UnsignedByte ; \r\n".toList ++
        "Offset = -42 ; \r\n".toList ++
        ("Note".toList ++ " = ".toList ++ "a;b\nc".toList ++ " ; \r\n".toList) :=
  ⟨⟨by decide, by decide, by decide⟩,
    ((int32_and_text_attribute_lines.1 env0 2 1 frameText []
        [⟨"Note".toList, NDAttrString, 0, [], "a;b\nc".toList⟩]
        ⟨"Offset".toList, NDAttrInt32, -42, [], []⟩ rfl).1 rfl (by decide) (by decide)).trans
      (by decide),
    ((int32_and_text_attribute_lines.1 env0 2 1 frameText
        [⟨"Offset".toList, NDAttrInt32, -42, [], []⟩] []
        ⟨"Note".toList, NDAttrString, 0, [], "a;b\nc".toList⟩ rfl).2 rfl (by decide)).trans
      (by decide)⟩

set_option maxRecDepth 100000 in
/-- C14, the code at a failing input: a uint32 attribute `Count` holding `4294967295`.  The
native unsigned decimal is `4294967295`; read through the signed member `value.i32` the value
is -1, whatever the local held before, and the line written is `Count = -1 ; \r\n`.  The
value `2147483648`, the first above the signed range, is printed as `-2147483648`. -/
theorem uint32_attribute_printed_signed :
    showNat 4294967295 = "4294967295".toList ∧
    (∀ uninit : Nat, getValue_i32 NDAttrUInt32 4294967295 uninit = -1) ∧
    (∀ uninit : Nat,
      showInt (getValue_i32 NDAttrUInt32 2147483648 uninit) = "-2147483648".toList) ∧
    openFile_output env0 2 1 frameU32 =
      "ByteOrder = LowByteFirst ; \r\nNum_Images = 1 ; \r\n".toList ++
        "DataType = UnsignedInteger ; \r\nCount = -1 ; \r\n".toList ∧
    (session0.openFile env0 "f.edf".toList 2 frameU32).1 = asynStatus.asynSuccess ∧
    (session0.openFile env0 "f.edf".toList 2 frameU32).2.disk "f.edf".toList =
      some ("\n\x7bEDF_DataBlockID = 1.Image.Psd ; \r\nEDF_HeaderSize = 157 ; \r\n".toList ++
        "ByteOrder = LowByteFirst ; \r\nNum_Images = 1 ; \r\n".toList ++
        "DataType = UnsignedInteger ; \r\nCount = -1 ; \r\n\x7d\n".toList) := by
  have hout : openFile_output env0 2 1 frameU32 =
      "ByteOrder = LowByteFirst ; \r\nNum_Images = 1 ; \r\n".toList ++
        "DataType = UnsignedInteger ; \r\nCount = -1 ; \r\n".toList := by decide
  have hlen : (openFile_output env0 2 1 frameU32).length = 94 := by rw [hout]; decide
  have hfin : openFile_final_size openFile_header_info (openFile_output env0 2 1 frameU32) =
      157 := by
    rw [openFile_final_size_eq, hlen, header_info_length]
    simp [Nat.log]
  refine ⟨by decide, fun _ => rfl, fun _ => rfl, hout, by decide, ?_⟩
  rw [NDFileEDF.openFile_created session0 env0 "f.edf".toList 2 frameU32 (by decide) (by decide)
    (by decide) rfl]
  simp only [Function.update_same, Option.some.injEq]
  rw [show session0.NDFileEDFMinHeader = 0 from rfl, emittedHeader_zero,
    show session0.NDFileNumCapture = 1 from rfl, hfin, hout]
  decide

/-! ## The example of a single frame -/

set_option maxRecDepth 100000 in
/-- C15: a single-frame open with the 2x2 uint16 frame whose one attribute `Exposure`, a
float32, prints as `0.5`, no minimum header size, then one `writeFile` of the frame.  Both
calls succeed; the header is the `EDF_DataBlockID` and `EDF_HeaderSize` lines, the `ByteOrder`
line, `Num_Images = 1`, `DataType = UnsignedShort` and the single attribute line
`Exposure = 0.5`; the size field, 159, is the byte length of the header; the eight bytes of the
frame follow the header and nothing else does. -/
theorem exposure_frame_file :
    (session0.openFile env0 "f.edf".toList 2 frame0).1 = asynStatus.asynSuccess ∧
    (session0.openFile env0 "f.edf".toList 2 frame0).2.disk "f.edf".toList =
      some ("\n\x7bEDF_DataBlockID = 1.Image.Psd ; \r\n".toList ++
        "EDF_HeaderSize = 159 ; \r\n".toList ++
        "ByteOrder = LowByteFirst ; \r\n".toList ++
        "Num_Images = 1 ; \r\n".toList ++
        "DataType = UnsignedShort ; \r\n".toList ++
        "Exposure = 0.5 ; \r\n".toList ++
        "\x7d\n".toList) ∧
    ("\n\x7bEDF_DataBlockID = 1.Image.Psd ; \r\n".toList ++
        "EDF_HeaderSize = 159 ; \r\n".toList ++
        "ByteOrder = LowByteFirst ; \r\n".toList ++
        "Num_Images = 1 ; \r\n".toList ++
        "DataType = UnsignedShort ; \r\n".toList ++
        "Exposure = 0.5 ; \r\n".toList ++
        "\x7d\n".toList).length = 159 ∧
    ((session0.openFile env0 "f.edf".toList 2 frame0).2.writeFile frame0).1 =
      asynStatus.asynSuccess ∧
    ((session0.openFile env0 "f.edf".toList 2 frame0).2.writeFile frame0).2.disk
        "f.edf".toList =
      some (("\n\x7bEDF_DataBlockID = 1.Image.Psd ; \r\n".toList ++
        "EDF_HeaderSize = 159 ; \r\n".toList ++
        "ByteOrder = LowByteFirst ; \r\n".toList ++
        "Num_Images = 1 ; \r\n".toList ++
        "DataType = UnsignedShort ; \r\n".toList ++
        "Exposure = 0.5 ; \r\n".toList ++
        "\x7d\n".toList) ++ "\x01\x00\x02\x00\x03\x00\x04\x00".toList) ∧
    "\x01\x00\x02\x00\x03\x00\x04\x00".toList.length = 8 ∧
    frame0.nElements * frame0.bytesPerElement = 8 := by
  have hopen := NDFileEDF.openFile_created session0 env0 "f.edf".toList 2 frame0 (by decide)
    (by decide) (by decide) rfl
  have hhdr : emittedHeader env0 2 session0.NDFileNumCapture session0.NDFileEDFMinHeader frame0 =
      "\n\x7bEDF_DataBlockID = 1.Image.Psd ; \r\n".toList ++
        "EDF_HeaderSize = 159 ; \r\n".toList ++
        "ByteOrder = LowByteFirst ; \r\n".toList ++
        "Num_Images = 1 ; \r\n".toList ++
        "DataType = UnsignedShort ; \r\n".toList ++
        "Exposure = 0.5 ; \r\n".toList ++
        "\x7d\n".toList := by
    rw [show session0.NDFileEDFMinHeader = 0 from rfl, emittedHeader_zero,
      show session0.NDFileNumCapture = 1 from rfl, final_size_frame0]
    decide
  rw [hopen, hhdr]
  refine ⟨rfl, by simp, by decide, ?_, ?_, by decide, by decide⟩
  · simp [NDFileEDF.writeFile, NDFileEDF.is_open]
  · simp only [NDFileEDF.writeFile, NDFileEDF.is_open, Option.isSome, Bool.not_true,
      Bool.false_eq_true, if_false, NDFileEDF.file_write_on, Function.update_same,
      Option.some.injEq]
    decide

/-! ## The two passes and the pad -/

theorem num_characters_natCast (i : Nat) :
    num_characters (i : Int) = ((Nat.log 10 i + 1 : Nat) : Int) := by
  simp only [num_characters, Int.toNat_natCast]
  push_cast
  ring

theorem second_pass_growth (i : Nat) (hi : 1 ≤ i) :
    Nat.log 10 (i + (Nat.log 10 i + 1)) = Nat.log 10 i ∨
      Nat.log 10 (i + (Nat.log 10 i + 1)) = Nat.log 10 i + 1 := by
  have h10 : 1 < 10 := by norm_num
  have hlo : 10 ^ Nat.log 10 i ≤ i := Nat.pow_log_le_self 10 (by omega)
  have hhi : i < 10 ^ (Nat.log 10 i + 1) := Nat.lt_pow_succ_log_self h10 i
  have hL := add_two_le_pow (Nat.log 10 i)
  generalize Nat.log 10 i = L at *
  have hp1 : 10 ^ (L + 1) = 10 * 10 ^ L := by rw [pow_succ]; ring
  have hp2 : 10 ^ (L + 2) = 10 * 10 ^ (L + 1) := by rw [pow_succ]; ring
  by_cases hc : i + (L + 1) < 10 ^ (L + 1)
  · exact Or.inl (Nat.log_eq_of_pow_le_of_lt_pow (by omega) hc)
  · exact Or.inr (Nat.log_eq_of_pow_le_of_lt_pow (by omega) (by omega))

/-- C17: the two passes reach a fixed point for every `initial >= 1`.  With
`d1 = 1 + log10 initial` and `d2 = 1 + log10 (initial + d1)`, the second count exceeds the
first by 0 or 1, and `initial + d2` has exactly `d2` digits, so a third pass would return `d2`
again; the size that `openFile` computes therefore has as many digits as were counted for it.
At the boundary, `initial = 996` gives 999 and `initial = 997` gives 1001. -/
theorem two_pass_is_fixed_point :
    (∀ initial : Int, 1 ≤ initial →
      (num_characters (initial + num_characters initial) - num_characters initial = 0 ∨
        num_characters (initial + num_characters initial) - num_characters initial = 1) ∧
      num_characters (initial + num_characters (initial + num_characters initial)) =
        num_characters (initial + num_characters initial)) ∧
    (∀ first towrite : Bytes,
      openFile_final_size first towrite =
        ((first.length : Int) + towrite.length + 7) +
          num_characters (openFile_final_size first towrite)) ∧
    (996 : Int) + num_characters (996 + num_characters 996) = 999 ∧
    (997 : Int) + num_characters (997 + num_characters 997) = 1001 := by
  have key : ∀ initial : Int, 1 ≤ initial →
      (num_characters (initial + num_characters initial) - num_characters initial = 0 ∨
        num_characters (initial + num_characters initial) - num_characters initial = 1) ∧
      num_characters (initial + num_characters (initial + num_characters initial)) =
        num_characters (initial + num_characters initial) := by
    intro initial h1
    obtain ⟨i, rfl⟩ := Int.eq_ofNat_of_zero_le (by omega : (0 : Int) ≤ initial)
    have hi : 1 ≤ i := by exact_mod_cast h1
    have e1 : ((i : Int) + ((Nat.log 10 i + 1 : Nat) : Int)) =
        ((i + (Nat.log 10 i + 1) : Nat) : Int) := by push_cast; ring
    have e2 : ((i : Int) + ((Nat.log 10 (i + (Nat.log 10 i + 1)) + 1 : Nat) : Int)) =
        ((i + (Nat.log 10 (i + (Nat.log 10 i + 1)) + 1) : Nat) : Int) := by push_cast; ring
    rw [num_characters_natCast, e1, num_characters_natCast, e2, num_characters_natCast,
      two_pass_fixed i hi]
    refine ⟨?_, rfl⟩
    rcases second_pass_growth i hi with h | h
    · left
      rw [h]
      push_cast
      ring
    · right
      rw [h]
      push_cast
      ring
  refine ⟨key, ?_, ?_, ?_⟩
  · intro first towrite
    have h := (key ((first.length : Int) + towrite.length + 7) (by omega)).2
    simp only [openFile_final_size]
    rw [h]
  · rw [show (996 : Int) = ((996 : Nat) : Int) from rfl, num_characters_natCast]
    have e : (((996 : Nat) : Int) + ((Nat.log 10 996 + 1 : Nat) : Int)) =
        ((996 + (Nat.log 10 996 + 1) : Nat) : Int) := by push_cast; ring
    rw [e, num_characters_natCast]
    simp [Nat.log]
  · rw [show (997 : Int) = ((997 : Nat) : Int) from rfl, num_characters_natCast]
    have e : (((997 : Nat) : Int) + ((Nat.log 10 997 + 1 : Nat) : Int)) =
        ((997 + (Nat.log 10 997 + 1) : Nat) : Int) := by push_cast; ring
    rw [e, num_characters_natCast]
    simp [Nat.log]

/-- Witness of C17: `initial = 997`, where the second pass counts one digit more. -/
theorem two_pass_is_fixed_point_witness :
    (1 : Int) ≤ 997 ∧
    ((num_characters (997 + num_characters 997) - num_characters 997 = 0 ∨
        num_characters (997 + num_characters 997) - num_characters 997 = 1) ∧
      num_characters (997 + num_characters (997 + num_characters 997)) =
        num_characters (997 + num_characters 997)) :=
  ⟨by decide, two_pass_is_fixed_point.1 997 (by decide)⟩

theorem final_size_lower (first towrite : Bytes) :
    (first.length : Int) + towrite.length + 8 ≤ openFile_final_size first towrite := by
  rw [openFile_final_size_eq]
  push_cast
  omega

theorem extra_length_eq (m : Int) (towrite : Bytes)
    (hlo : (towrite.length : Int) + 2 ≤ m) (hhi : m < 2 ^ 31) :
    ((extra_length m towrite : Nat) : Int) = m - 2 - towrite.length := by
  unfold extra_length
  have hnn : 0 ≤ m - 2 - (towrite.length : Int) := by omega
  have hlt : m - 2 - (towrite.length : Int) < 2 ^ 64 := by omega
  rw [Int.emod_eq_of_lt hnn hlt, Int.toNat_of_nonneg hnn]

/-- C16: when `openFile` succeeds with a minimum header size `m` (in the range of `int`) above
the size computed by the two passes, the size field is the decimal of `m`, not a size computed
again, the body is emitted as it is, and exactly `m - 2 - B` spaces stand between the body and
the closing brace, `B` being the byte length of the body. -/
theorem openFile_min_above_computed (s : NDFileEDF) (env : Env) (fileName : Bytes)
    (openMode : Nat) (pArray : NDArray)
    (hok : (s.openFile env fileName openMode pArray).1 = asynStatus.asynSuccess)
    (hlt : openFile_final_size openFile_header_info
      (openFile_output env openMode s.NDFileNumCapture pArray) < s.NDFileEDFMinHeader)
    (hhi : s.NDFileEDFMinHeader < 2 ^ 31) :
    s.NDFileEDFMinHeader ≠ 0 ∧
    showInt s.NDFileEDFMinHeader = showNat s.NDFileEDFMinHeader.toNat ∧
    ∃ pad : Nat,
      (pad : Int) = s.NDFileEDFMinHeader - 2 -
        ((openFile_output env openMode s.NDFileNumCapture pArray).length : Int) ∧
      (s.openFile env fileName openMode pArray).2.disk fileName =
        some ("\n\x7bEDF_DataBlockID = 1.Image.Psd ; \r\nEDF_HeaderSize = ".toList ++
          showInt s.NDFileEDFMinHeader ++ " ; \r\n".toList ++
          openFile_output env openMode s.NDFileNumCapture pArray ++
          List.replicate pad ' ' ++ "\x7d\n".toList) := by
  have hf := final_size_lower openFile_header_info
    (openFile_output env openMode s.NDFileNumCapture pArray)
  have hP := header_info_length
  have hm : s.NDFileEDFMinHeader ≠ 0 := by omega
  refine ⟨hm, showInt_of_nonneg _ (by omega),
    extra_length s.NDFileEDFMinHeader (openFile_output env openMode s.NDFileNumCapture pArray),
    extra_length_eq _ _ (by omega) hhi, ?_⟩
  rw [openFile_success_state s env fileName openMode pArray hok]
  simp only [Function.update_same, Option.some.injEq, emittedHeader]
  rw [if_pos ⟨hm, hlt⟩]
  simp [openFile_header_info]

theorem openFile_min_200_succeeds :
    (({ session0 with NDFileEDFMinHeader := 200 } : NDFileEDF).openFile env0 "f.edf".toList 2
      frame0).1 = asynStatus.asynSuccess := by
  rw [NDFileEDF.openFile_created ({ session0 with NDFileEDFMinHeader := 200 } : NDFileEDF) env0
    "f.edf".toList 2 frame0 (by decide) (by decide) (by decide) rfl]

theorem final_size_frame0_lt_200 :
    openFile_final_size openFile_header_info (openFile_output env0 2 1 frame0) < 200 := by
  rw [final_size_frame0]
  decide

set_option maxRecDepth 100000 in
/-- Witness of C16: the example frame with a minimum header size of 200: the field says 200 and
102 spaces follow the 96 bytes of the body. -/
theorem openFile_min_above_computed_witness :
    ((({ session0 with NDFileEDFMinHeader := 200 } : NDFileEDF).openFile env0 "f.edf".toList 2
        frame0).1 = asynStatus.asynSuccess ∧
      openFile_final_size openFile_header_info (openFile_output env0 2 1 frame0) < 200 ∧
      (200 : Int) < 2 ^ 31) ∧
    ∃ pad : Nat,
      (pad : Int) = 200 - 2 - ((openFile_output env0 2 1 frame0).length : Int) ∧
      (({ session0 with NDFileEDFMinHeader := 200 } : NDFileEDF).openFile env0 "f.edf".toList 2
        frame0).2.disk "f.edf".toList =
        some ("\n\x7bEDF_DataBlockID = 1.Image.Psd ; \r\nEDF_HeaderSize = ".toList ++
          showInt 200 ++ " ; \r\n".toList ++ openFile_output env0 2 1 frame0 ++
          List.replicate pad ' ' ++ "\x7d\n".toList) :=
  ⟨⟨openFile_min_200_succeeds, final_size_frame0_lt_200, by decide⟩,
    (openFile_min_above_computed ({ session0 with NDFileEDFMinHeader := 200 } : NDFileEDF) env0
      "f.edf".toList 2 frame0 openFile_min_200_succeeds final_size_frame0_lt_200
      (by decide)).2.2⟩
